import Mathlib

/-!
Verification of the VKArchiveDownloader download-resolution logic
(`data_downloader.py`) via a shallow embedding in Lean 4.

The embedding models Python strings as `String` (with helper functions on
`List Char` mirroring `str.find`, `str.split`, substring containment and
slicing), HTTP transport as an environment function from URL to an optional
`Response`, exceptions as `Except String`, and file writes as an explicit
list of write records produced on the successful paths.
-/

set_option autoImplicit false

/-- Index of the first occurrence of `sub` in `l` (Python `str.find`,
with `none` standing for Python's `-1`). -/
def subIdx? (sub : List Char) : List Char → Option Nat
  | [] => if sub.isEmpty then some 0 else none
  | c :: rest =>
    if sub.isPrefixOf (c :: rest) then some 0
    else (subIdx? sub rest).map (· + 1)

/-- Python's substring containment test `sub in s`. -/
def pyContains (s sub : String) : Bool :=
  (subIdx? sub.data s.data).isSome

/-- Python `list[-1]` on a list, as an optional value (`none` models the
`IndexError` on an empty list). -/
def lastElem? {α : Type} : List α → Option α
  | [] => none
  | [a] => some a
  | _ :: b :: rest => lastElem? (b :: rest)

/-- Python `s.split(sep)` for a single-character separator: splits at every
occurrence, keeping empty segments, never returning an empty list. -/
def splitChar (sep : Char) : List Char → List (List Char)
  | [] => [[]]
  | c :: rest =>
    if c = sep then [] :: splitChar sep rest
    else
      match splitChar sep rest with
      | [] => [[c]]
      | seg :: segs => (c :: seg) :: segs

/-- Fuel-indexed worker for multi-character `str.split`; the fuel is always
instantiated with the length of the list, which bounds the recursion. -/
def splitSub (sep : List Char) : Nat → List Char → List (List Char)
  | _, [] => [[]]
  | 0, l => [l]
  | fuel + 1, c :: rest =>
    if sep ≠ [] ∧ sep.isPrefixOf (c :: rest) then
      [] :: splitSub sep fuel (rest.drop (sep.length - 1))
    else
      match splitSub sep fuel rest with
      | [] => [[c]]
      | seg :: segs => (c :: seg) :: segs

/-- Python `s.split(sep)` for a non-empty multi-character separator. -/
def pySplit (sep l : List Char) : List (List Char) :=
  if sep = [] then [l] else splitSub sep l.length l

/-- `os.path.join` restricted to two components, as used by the source. -/
def pjoin (a b : String) : String :=
  if b.data.head? = some '/' then b
  else if a.data.isEmpty ∨ lastElem? a.data = some '/' then a ++ b
  else a ++ "/" ++ b

/-- Parsed `content-type` header, the dictionary built by
`get_response_info` (`encoding := none` models an absent key). -/
structure ContentTypeInfo where
  encoding : Option String
  data_type : String
  extension : String
  full_type_info : String
deriving DecidableEq

/-- `get_response_info(content_type)` from `data_downloader.py`: reads an
optional `charset=` suffix, cuts the string at the first `;`, and splits the
type portion at `/`; an unpack with other than two components raises
(`ValueError`), modelled as `Except.error`. -/
def get_response_info (content_type : String) : Except String ContentTypeInfo :=
  let cs := content_type.data
  let enc : Option String :=
    match subIdx? "charset=".data cs with
    | some i => some ((cs.drop (i + "charset=".length)).asString)
    | none => none
  let fti : List Char :=
    match subIdx? [';'] cs with
    | some i => cs.take i
    | none => cs
  match splitChar '/' fti with
  | [d, e] => .ok ⟨enc, d.asString, e.asString, fti.asString⟩
  | _ => .error "ValueError: content-type split"

/-- `get_file_name_by_link(link)`: `link.split('/')[-1].split('?extra')[0]`
inside a `try`, with any exception caught and turned into `None`; the
partial list indexings `[-1]` and `[0]` are modelled by the optional
`lastElem?`/`head?`, whose `none` cases land in the `except` branch. -/
def get_file_name_by_link (link : String) : Option String :=
  match lastElem? (splitChar '/' link.data) with
  | none => none
  | some lastSeg =>
    match (pySplit "?extra".data lastSeg).head? with
    | none => none
    | some name => some name.asString

example : get_file_name_by_link "https://host/path/name.ext?extra=1" = some "name.ext" := by decide
example : get_file_name_by_link "https://host/" = some "" := by decide
example : get_file_name_by_link "abc" = some "abc" := by decide
example : get_response_info "image/jpeg" = .ok ⟨none, "image", "jpeg", "image/jpeg"⟩ := by rfl
example : get_response_info "text/html; charset=utf-8" =
    .ok ⟨some "utf-8", "text", "html", "text/html"⟩ := by rfl
example : get_response_info "image" = .error "ValueError: content-type split" := by rfl
example : pyContains "image/jpeg" "image" = true := by decide
example : pyContains "application/pdf" "image" = false := by decide

/-- An HTML element as seen through BeautifulSoup in this code: a tag name,
an optional `src` attribute (`Tag.get('src')`), and its text content. -/
structure HtmlElem where
  tag : String
  src : Option String
  text : String
deriving DecidableEq

/-- An HTTP response as the code observes it: `response.status`,
`response.headers['content-type']`, `str(response.url)` after redirects,
the parsed HTML elements of the body in document order, and the raw body
bytes streamed by `downloader`. -/
structure Response where
  status : Nat
  contentType : String
  finalUrl : String
  elems : List HtmlElem
  body : List Nat
deriving DecidableEq

/-- The network: a map from requested URL to the response the server gives,
with `none` modelling a transport-level exception (timeout, DNS failure). -/
structure Env where
  fetch : String → Option Response

/-- `soup.find(t)`: first element with the given tag, in document order. -/
def findTag (r : Response) (t : String) : Option HtmlElem :=
  r.elems.find? (fun e => e.tag == t)

/-- The record returned by `get_info`. -/
structure DownloadResult where
  url : String
  file_info : String
deriving DecidableEq

/-- One file written by `downloader`: destination directory, file name, and
the bytes of the response body it streams. -/
structure FileWrite where
  dir : String
  name : String
  content : List Nat
deriving DecidableEq

/-- `find_link_by_url(session, url, cookies)`: GETs `url`, asserts status
200, and on an HTML content-type checks the page title for the
access-denied marker (a missing title raises `AttributeError`, modelled as
an error) and returns the `src` of the first `img`, else of the first
`iframe`; otherwise it returns the post-redirect URL when it differs from
`url`, and `none` when it does not. -/
def find_link_by_url (env : Env) (url : String) : Except String (Option String) :=
  match env.fetch url with
  | none => .error "network error"
  | some response =>
    if response.status = 200 then
      if pyContains response.contentType "text/html" then
        match findTag response "title" with
        | none => .error "AttributeError: no title element"
        | some titleEl =>
          if pyContains titleEl.text "Ошибка" then .error "Ошибка доступа к документу"
          else
            match findTag response "img" with
            | some el => .ok el.src
            | none =>
              match findTag response "iframe" with
              | some el => .ok el.src
              | none =>
                if response.finalUrl ≠ url then .ok (some response.finalUrl) else .ok none
      else
        if response.finalUrl ≠ url then .ok (some response.finalUrl) else .ok none
    else .error ("Response status: " ++ toString response.status)

/-- The direct-download branch of `get_info` (content-type containing
`image` or `audio`): parse the content-type, build the destination folder
from `full_type_info`, stream the body to `{file_name}.{extension}` and
return the resolved URL with `full_type_info`. -/
def directBranch (r : Response) (save_path file_name : String) :
    Except String (DownloadResult × List FileWrite) :=
  match get_response_info r.contentType with
  | .error e => .error e
  | .ok info =>
    .ok (⟨r.finalUrl, info.full_type_info⟩,
      [⟨pjoin save_path info.full_type_info,
        file_name ++ "." ++ info.extension, r.body⟩])

/-- The resolve-and-download branch of `get_info` after `find_link_by_url`
produced the link `link`: GET the link (status is NOT checked here), parse
its content-type, name the file by `get_file_name_by_link` with the
`{file_name}.{extension}` fallback when that returns `None`, stream the
body, and return the second response's resolved URL with `full_type_info`. -/
def resolveBranch (env : Env) (link : String) (save_path file_name : String) :
    Except String (DownloadResult × List FileWrite) :=
  match env.fetch link with
  | none => .error "network error on resolved link"
  | some r2 =>
    match get_response_info r2.contentType with
    | .error e => .error e
    | .ok info =>
      let download_file_name : String :=
        match get_file_name_by_link link with
        | none => file_name ++ "." ++ info.extension
        | some n => n
      .ok (⟨r2.finalUrl, info.full_type_info⟩,
        [⟨pjoin save_path info.full_type_info, download_file_name, r2.body⟩])

/-- The body of `get_info`'s `try` block: GET the input URL, assert status
200, branch on the content-type — direct download for `image`/`audio`,
resolve-and-download when the content-type contains `text/html` AND the
original URL contains `vk.com/doc` (a `None` resolved link makes the
follow-up `session.get(None)` raise), and otherwise return `not_parse`
without writing anything. -/
def get_info_body (env : Env) (url save_path file_name : String) :
    Except String (DownloadResult × List FileWrite) :=
  match env.fetch url with
  | none => .error "network error"
  | some response =>
    if response.status = 200 then
      if pyContains response.contentType "image" ∨ pyContains response.contentType "audio" then
        directBranch response save_path file_name
      else
        if pyContains response.contentType "text/html" ∧ pyContains url "vk.com/doc" then
          match find_link_by_url env response.finalUrl with
          | .error e => .error e
          | .ok none => .error "ValueError: None url"
          | .ok (some link) => resolveBranch env link save_path file_name
        else
          .ok (⟨response.finalUrl, "not_parse"⟩, [])
    else .error ("Response status: " ++ toString response.status)

/-- `get_info(url, save_path, file_name, sema, cookies)`: the `try` body
with a catch-all `except` that converts any exception into
`{'url': url, 'file_info': 'error'}` (the original input URL). -/
def get_info (env : Env) (url save_path file_name : String) :
    DownloadResult × List FileWrite :=
  match get_info_body env url save_path file_name with
  | .ok v => v
  | .error _ => (⟨url, "error"⟩, [])

theorem strData_append (a b : String) : (a ++ b).data = a.data ++ b.data := by
  cases a; cases b; rfl

theorem asString_data (s : String) : s.data.asString = s := rfl

theorem strAppend_assoc (a b c : String) : a ++ b ++ c = a ++ (b ++ c) := by
  obtain ⟨la⟩ := a
  obtain ⟨lb⟩ := b
  obtain ⟨lc⟩ := c
  exact congrArg String.mk (List.append_assoc la lb lc)

theorem pyContains_false_iff {s sub : String} :
    pyContains s sub = false ↔ subIdx? sub.data s.data = none := by
  unfold pyContains
  cases hx : subIdx? sub.data s.data <;> simp

theorem single_isPrefixOf (c x : Char) (l : List Char) :
    ([c].isPrefixOf (x :: l)) = (c == x) := by
  cases hcx : (c == x) <;> simp [List.isPrefixOf, hcx]

theorem not_mem_of_single_none {c : Char} :
    ∀ {l : List Char}, subIdx? [c] l = none → c ∉ l := by
  intro l
  induction l with
  | nil => intro _ h; cases h
  | cons x rest ih =>
    intro h
    rw [subIdx?] at h
    by_cases hcx : ([c].isPrefixOf (x :: rest)) = true
    · rw [if_pos hcx] at h; cases h
    · rw [if_neg hcx] at h
      have hx : ¬ c = x := by
        intro heq; apply hcx; subst heq; simp [List.isPrefixOf]
      have hrest : subIdx? [c] rest = none := by
        cases hr : subIdx? [c] rest with
        | none => rfl
        | some v => rw [hr] at h; simp at h
      intro hmem
      cases List.mem_cons.mp hmem with
      | inl h1 => exact hx h1
      | inr h2 => exact ih hrest h2

theorem single_none_of_not_mem {c : Char} :
    ∀ {l : List Char}, c ∉ l → subIdx? [c] l = none := by
  intro l
  induction l with
  | nil => intro _; rfl
  | cons x rest ih =>
    intro h
    simp only [List.mem_cons, not_or] at h
    rw [subIdx?, if_neg, ih h.2]
    · simp
    · rw [single_isPrefixOf]
      simp
      exact h.1

theorem subIdx?_single_append {c : Char} :
    ∀ (a b : List Char), c ∉ a → subIdx? [c] (a ++ c :: b) = some a.length := by
  intro a
  induction a with
  | nil => intro b _; simp [subIdx?, List.isPrefixOf]
  | cons x rest ih =>
    intro b hmem
    simp only [List.mem_cons, not_or] at hmem
    simp only [List.cons_append, subIdx?, List.append_eq]
    rw [if_neg, ih b hmem.2]
    · simp
    · rw [single_isPrefixOf]
      simp
      exact hmem.1

theorem isPrefixOf_elim_cross {c : Char} :
    ∀ (sub a b : List Char), c ∉ sub → sub.isPrefixOf (a ++ c :: b) = true →
      sub.isPrefixOf a = true := by
  intro sub a
  induction a generalizing sub with
  | nil =>
    intro b hc h
    cases sub with
    | nil => rfl
    | cons s srest =>
      simp only [List.nil_append, List.isPrefixOf, Bool.and_eq_true, beq_iff_eq] at h
      exact absurd (h.1 ▸ List.mem_cons_self s srest) hc
  | cons x arest ih =>
    intro b hc h
    cases sub with
    | nil => rfl
    | cons s srest =>
      simp only [List.cons_append, List.isPrefixOf, Bool.and_eq_true] at h ⊢
      exact ⟨h.1, ih srest b (fun hm => hc (List.mem_cons_of_mem _ hm)) h.2⟩

theorem subIdx?_skip {sub : List Char} {c : Char} (hc : c ∉ sub) :
    ∀ (a b : List Char), subIdx? sub a = none →
      subIdx? sub (a ++ c :: b) = (subIdx? sub b).map (· + (a.length + 1)) := by
  intro a
  induction a with
  | nil =>
    intro b ha
    have hne : ¬ sub.isEmpty = true := by
      intro he
      rw [subIdx?, if_pos he] at ha
      cases ha
    simp only [List.nil_append, subIdx?]
    rw [if_neg]
    · simp
    · intro hp
      cases sub with
      | nil => exact hne rfl
      | cons s srest =>
        simp only [List.isPrefixOf, Bool.and_eq_true, beq_iff_eq] at hp
        exact hc (hp.1 ▸ List.mem_cons_self s srest)
  | cons x arest ih =>
    intro b ha
    rw [subIdx?] at ha
    have hnp : ¬ (sub.isPrefixOf (x :: arest)) = true := by
      intro hp; rw [if_pos hp] at ha; cases ha
    rw [if_neg hnp] at ha
    have ha2 : subIdx? sub arest = none := by
      cases hr : subIdx? sub arest with
      | none => rfl
      | some v => rw [hr] at ha; simp at ha
    simp only [List.cons_append, subIdx?, List.append_eq]
    rw [if_neg, ih b ha2]
    · cases hb : subIdx? sub b
      · simp
      · simp
        omega
    · intro hp
      exact hnp (isPrefixOf_elim_cross sub (x :: arest) b hc hp)

theorem isPrefixOf_append_self : ∀ (l r : List Char), l.isPrefixOf (l ++ r) = true := by
  intro l r
  induction l with
  | nil => simp [List.isPrefixOf]
  | cons x rest ih => simp [List.isPrefixOf, ih]

theorem subIdx?_self_append (sub r : List Char) : subIdx? sub (sub ++ r) = some 0 := by
  cases sub with
  | nil =>
    cases r with
    | nil => rfl
    | cons a b => simp [subIdx?, List.isPrefixOf]
  | cons s srest =>
    rw [List.cons_append, subIdx?, if_pos]
    exact isPrefixOf_append_self (s :: srest) r

theorem splitChar_of_not_mem {c : Char} :
    ∀ {l : List Char}, c ∉ l → splitChar c l = [l] := by
  intro l
  induction l with
  | nil => intro _; rfl
  | cons x rest ih =>
    intro h
    simp only [List.mem_cons, not_or] at h
    rw [splitChar, if_neg (fun he => h.1 he.symm), ih h.2]

theorem splitChar_append {c : Char} :
    ∀ (a b : List Char), c ∉ a → splitChar c (a ++ c :: b) = a :: splitChar c b := by
  intro a
  induction a with
  | nil => intro b _; simp [splitChar]
  | cons x rest ih =>
    intro b h
    simp only [List.mem_cons, not_or] at h
    simp only [List.cons_append, splitChar, List.append_eq]
    rw [if_neg (fun he => h.1 he.symm), ih b h.2]

theorem splitChar_ne_nil (c : Char) : ∀ (l : List Char), splitChar c l ≠ [] := by
  intro l
  induction l with
  | nil => simp [splitChar]
  | cons x rest ih =>
    rw [splitChar]
    by_cases hx : x = c
    · rw [if_pos hx]; simp
    · rw [if_neg hx]
      cases hs : splitChar c rest with
      | nil => simp
      | cons seg segs => simp

theorem splitSub_ne_nil (sep : List Char) :
    ∀ (fuel : Nat) (l : List Char), splitSub sep fuel l ≠ [] := by
  intro fuel
  induction fuel with
  | zero => intro l; cases l <;> simp [splitSub]
  | succ n ih =>
    intro l
    cases l with
    | nil => simp [splitSub]
    | cons c rest =>
      rw [splitSub]
      by_cases hp : sep ≠ [] ∧ sep.isPrefixOf (c :: rest) = true
      · rw [if_pos hp]; simp
      · rw [if_neg hp]
        cases hs : splitSub sep n rest with
        | nil => simp
        | cons seg segs => simp

theorem pySplit_ne_nil (sep l : List Char) : pySplit sep l ≠ [] := by
  unfold pySplit
  by_cases hs : sep = []
  · rw [if_pos hs]; simp
  · rw [if_neg hs]; exact splitSub_ne_nil sep l.length l

theorem lastElem?_isSome {α : Type} :
    ∀ (l : List α), l ≠ [] → ∃ a, lastElem? l = some a := by
  intro l
  induction l with
  | nil => intro h; exact absurd rfl h
  | cons x rest ih =>
    intro _
    cases rest with
    | nil => exact ⟨x, rfl⟩
    | cons y t =>
      obtain ⟨a, ha⟩ := ih (by simp)
      exact ⟨a, by rw [lastElem?]; exact ha⟩

theorem get_file_name_by_link_isSome (link : String) :
    ∃ s, get_file_name_by_link link = some s := by
  obtain ⟨seg, hseg⟩ :=
    lastElem?_isSome (splitChar '/' link.data) (splitChar_ne_nil '/' link.data)
  obtain ⟨name, hname⟩ : ∃ n, (pySplit "?extra".data seg).head? = some n := by
    cases hh : (pySplit "?extra".data seg).head? with
    | none =>
      rw [List.head?_eq_none_iff] at hh
      exact absurd hh (pySplit_ne_nil _ _)
    | some n => exact ⟨n, rfl⟩
  exact ⟨name.asString, by simp [get_file_name_by_link, hseg, hname]⟩

/-- C4: a content-type of the exact form `type/ext` (no `;`, no
parameters) parses to `data_type = type`, `extension = ext`,
`full_type_info = "type/ext"` with no `encoding` key; the form
`type/ext; charset=X` parses to the same three fields plus
`encoding = X`. -/
theorem C4_content_type_parsing (t e x : String)
    (ht : pyContains t "/" = false) (he : pyContains e "/" = false)
    (ht2 : pyContains t ";" = false) (he2 : pyContains e ";" = false)
    (hcs : pyContains (t ++ "/" ++ e) "charset=" = false) :
    get_response_info (t ++ "/" ++ e) = .ok ⟨none, t, e, t ++ "/" ++ e⟩ ∧
    get_response_info (t ++ "/" ++ e ++ "; charset=" ++ x) =
      .ok ⟨some x, t, e, t ++ "/" ++ e⟩ := by
  have hts : ('/' : Char) ∉ t.data := not_mem_of_single_none (pyContains_false_iff.mp ht)
  have hes : ('/' : Char) ∉ e.data := not_mem_of_single_none (pyContains_false_iff.mp he)
  have htsemi : (';' : Char) ∉ t.data := not_mem_of_single_none (pyContains_false_iff.mp ht2)
  have hesemi : (';' : Char) ∉ e.data := not_mem_of_single_none (pyContains_false_iff.mp he2)
  have hdata : (t ++ "/" ++ e).data = t.data ++ '/' :: e.data := by
    rw [strData_append, strData_append]
    simp
  have hsemite : (';' : Char) ∉ t.data ++ '/' :: e.data := by
    intro hm
    rcases List.mem_append.mp hm with h1 | h2
    · exact htsemi h1
    · rcases List.mem_cons.mp h2 with h3 | h4
      · exact absurd h3 (by decide)
      · exact hesemi h4
  have hsplit : splitChar '/' (t.data ++ '/' :: e.data) = [t.data, e.data] := by
    rw [splitChar_append _ _ hts, splitChar_of_not_mem hes]
  have hcsnone : subIdx? "charset=".data (t.data ++ '/' :: e.data) = none := by
    have h0 := pyContains_false_iff.mp hcs
    rwa [hdata] at h0
  constructor
  · have hsemi : subIdx? [';'] (t.data ++ '/' :: e.data) = none :=
      single_none_of_not_mem hsemite
    simp only [get_response_info, hdata, hcsnone, hsemi, hsplit]
    rw [← hdata]
    simp only [asString_data]
  · have hdata2 : (t ++ "/" ++ e ++ "; charset=" ++ x).data =
        (t.data ++ '/' :: e.data) ++ ';' :: ' ' :: ("charset=".data ++ x.data) := by
      rw [strData_append, strData_append, hdata,
        show "; charset=".data = ';' :: ' ' :: "charset=".data from rfl]
      simp
    have hsemipos : subIdx? [';']
        ((t.data ++ '/' :: e.data) ++ ';' :: ' ' :: ("charset=".data ++ x.data)) =
        some (t.data ++ '/' :: e.data).length :=
      subIdx?_single_append _ _ hsemite
    have hskip1 := subIdx?_skip
      (show (';' : Char) ∉ "charset=".data by decide)
      (t.data ++ '/' :: e.data) (' ' :: ("charset=".data ++ x.data)) hcsnone
    have hskip2 := subIdx?_skip
      (show (' ' : Char) ∉ "charset=".data by decide)
      [] ("charset=".data ++ x.data) rfl
    simp only [List.nil_append, List.length_nil] at hskip2
    have hself : subIdx? "charset=".data ("charset=".data ++ x.data) = some 0 :=
      subIdx?_self_append _ _
    have hfull : subIdx? "charset=".data
        ((t.data ++ '/' :: e.data) ++ ';' :: ' ' :: ("charset=".data ++ x.data)) =
        some ((t.data ++ '/' :: e.data).length + 2) := by
      rw [hskip1, hskip2, hself]
      simp
      omega
    have hdrop : ((t.data ++ '/' :: e.data) ++
        ';' :: ' ' :: ("charset=".data ++ x.data)).drop
          ((t.data ++ '/' :: e.data).length + 2 + "charset=".length) = x.data := by
      have hre : (t.data ++ '/' :: e.data) ++ ';' :: ' ' :: ("charset=".data ++ x.data) =
          ((t.data ++ '/' :: e.data) ++ ';' :: ' ' :: "charset=".data) ++ x.data := by
        simp
      have hlen : ((t.data ++ '/' :: e.data) ++ ';' :: ' ' :: "charset=".data).length =
          (t.data ++ '/' :: e.data).length + 2 + "charset=".length := by
        simp only [List.length_append, List.length_cons, String.length]
        omega
      rw [hre, ← hlen, List.drop_left]
    simp only [get_response_info, hdata2, hfull, hsemipos, hdrop, List.take_left, hsplit]
    rw [← hdata]
    simp only [asString_data]

/-- Witness for C4 at the concrete header strings `"text/html"` and
`"text/html; charset=utf-8"`. -/
theorem C4_content_type_parsing_witness :
    get_response_info ("text" ++ "/" ++ "html") =
      .ok ⟨none, "text", "html", "text" ++ "/" ++ "html"⟩ ∧
    get_response_info ("text" ++ "/" ++ "html" ++ "; charset=" ++ "utf-8") =
      .ok ⟨some "utf-8", "text", "html", "text" ++ "/" ++ "html"⟩ :=
  C4_content_type_parsing "text" "html" "utf-8"
    (by decide) (by decide) (by decide) (by decide) (by decide)

/-- C1: any exception raised in the body of `get_info` is caught at the
orchestrator boundary and converted into the record
`{url := input url, file_info := "error"}`; in every case the caller
receives a result record (the function is total). -/
theorem C1_orchestrator_catches_all (env : Env) (url save_path file_name : String) :
    (∃ v, get_info_body env url save_path file_name = .ok v ∧
      get_info env url save_path file_name = v) ∨
    (∃ e, get_info_body env url save_path file_name = .error e ∧
      get_info env url save_path file_name = (⟨url, "error"⟩, [])) := by
  cases hb : get_info_body env url save_path file_name with
  | ok v => exact Or.inl ⟨v, rfl, by simp [get_info, hb]⟩
  | error e => exact Or.inr ⟨e, rfl, by simp [get_info, hb]⟩

/-- Viewer-page response used for the C2 counterexample: a harmless HTML
page with an iframe pointing at the asset. -/
def respDocC2 : Response :=
  ⟨200, "text/html; charset=windows-1251", "http://vk.com/doc1",
   [⟨"title", none, "Документ"⟩, ⟨"iframe", some "http://cdn/f.mp3", ""⟩], []⟩

/-- Resolved-link response used for the C2 counterexample: status 404. -/
def respCdnC2 : Response := ⟨404, "audio/mpeg", "http://cdn/f.mp3", [], [7, 7]⟩

/-- Network for the C2 counterexample. -/
def envC2 : Env :=
  ⟨fun u =>
    if u = "http://vk.com/doc1" then some respDocC2
    else if u = "http://cdn/f.mp3" then some respCdnC2
    else none⟩

/-- C2 counterexample: the follow-up GET to the resolved link returns
status 404, yet the fetch succeeds with `file_info = "audio/mpeg"`, not
`"error"`: no status assertion guards the follow-up request. -/
theorem C2_counterexample :
    (envC2.fetch "http://cdn/f.mp3").map Response.status = some 404 ∧
    get_info envC2 "http://vk.com/doc1" "save" "f" =
      (⟨"http://cdn/f.mp3", "audio/mpeg"⟩,
       [⟨"save/audio/mpeg", "f.mp3", [7, 7]⟩]) := by
  exact ⟨rfl, rfl⟩

/-- C2 (amended): a non-200 status on the primary GET, or on the
viewer-page GET inside `find_link_by_url`, is an assertion failure
surfaced as `file_info = "error"` with `url` the original input; the
follow-up GET to the resolved link carries no such check. -/
theorem C2_non200_is_error (env : Env) (url save_path file_name : String)
    (r : Response) (hf : env.fetch url = some r) :
    (r.status ≠ 200 →
      get_info env url save_path file_name = (⟨url, "error"⟩, [])) ∧
    (∀ r2 : Response, r.status = 200 →
      pyContains r.contentType "image" = false →
      pyContains r.contentType "audio" = false →
      pyContains r.contentType "text/html" = true →
      pyContains url "vk.com/doc" = true →
      env.fetch r.finalUrl = some r2 → r2.status ≠ 200 →
      get_info env url save_path file_name = (⟨url, "error"⟩, [])) := by
  constructor
  · intro hs
    simp [get_info, get_info_body, hf, hs]
  · intro r2 hs hi ha hh hv hf2 hs2
    have hfl : find_link_by_url env r.finalUrl =
        .error ("Response status: " ++ toString r2.status) := by
      simp [find_link_by_url, hf2, hs2]
    simp [get_info, get_info_body, hf, hs, hi, ha, hh, hv, hfl]

/-- Primary response used for the C2 witness: status 404. -/
def respC2W : Response := ⟨404, "text/plain", "http://x/a", [], []⟩

/-- Network for the C2 witness. -/
def envC2W : Env := ⟨fun u => if u = "http://x/a" then some respC2W else none⟩

/-- Witness for C2 (amended): a 404 on the primary request yields the
error record with the original URL. -/
theorem C2_non200_is_error_witness :
    get_info envC2W "http://x/a" "s" "f" = (⟨"http://x/a", "error"⟩, []) :=
  (C2_non200_is_error envC2W "http://x/a" "s" "f" respC2W rfl).1 (by decide)

/-- C3: a content-type containing "image" or "audio" always takes the
direct-download branch, whose outcome is independent of the input URL (in
particular of its host); with content-type "image/jpeg" the body is
written under `pjoin save_path "image/jpeg"` as `file_name ++ ".jpeg"` and
the result carries the response's resolved URL and
`file_info = "image/jpeg"`. -/
theorem C3_direct_download (env : Env) (url save_path file_name : String)
    (r : Response) (hf : env.fetch url = some r) (hs : r.status = 200) :
    ((pyContains r.contentType "image" = true ∨ pyContains r.contentType "audio" = true) →
      get_info_body env url save_path file_name = directBranch r save_path file_name) ∧
    (r.contentType = "image/jpeg" →
      get_info env url save_path file_name =
        (⟨r.finalUrl, "image/jpeg"⟩,
         [⟨pjoin save_path "image/jpeg", file_name ++ ".jpeg", r.body⟩])) := by
  constructor
  · intro h
    cases h with
    | inl h1 => simp [get_info_body, hf, hs, h1]
    | inr h2 => simp [get_info_body, hf, hs, h2]
  · intro hct
    have hgr : get_response_info "image/jpeg" =
        .ok ⟨none, "image", "jpeg", "image/jpeg"⟩ := by rfl
    have hi : pyContains "image/jpeg" "image" = true := by rfl
    simp [get_info, get_info_body, directBranch, hf, hs, hct, hgr, hi]
    rw [strAppend_assoc, show "." ++ "jpeg" = ".jpeg" from rfl]

/-- Direct-image response used for the C3 witness. -/
def respC3W : Response := ⟨200, "image/jpeg", "http://pic/1.jpg", [], [9, 9, 9]⟩

/-- Network for the C3 witness. -/
def envC3W : Env := ⟨fun u => if u = "http://pic/1" then some respC3W else none⟩

/-- Witness for C3: a concrete image/jpeg fetch writes
`save/image/jpeg/f.jpeg` and reports `file_info = "image/jpeg"`. -/
theorem C3_direct_download_witness :
    get_info envC3W "http://pic/1" "save" "f" =
      (⟨"http://pic/1.jpg", "image/jpeg"⟩,
       [⟨pjoin "save" "image/jpeg", "f" ++ ".jpeg", [9, 9, 9]⟩]) :=
  (C3_direct_download envC3W "http://pic/1" "save" "f" respC3W rfl rfl).2 rfl

/-- C5 counterexample: `"abc"` contains no `/`, yet the extractor returns
`some "abc"`, not a null/absent result. -/
theorem C5_counterexample :
    pyContains "abc" "/" = false ∧ get_file_name_by_link "abc" = some "abc" :=
  ⟨by decide, by decide⟩

/-- C5 (amended): extraction from "https://host/path/name.ext?extra=1"
yields "name.ext" and from "https://host/" yields ""; a string with no "/"
yields the whole string truncated at the first "?extra" (wrapped in
`some`) rather than a null result; for every string input the extractor
never raises and never returns a null result. -/
theorem C5_filename_extraction :
    get_file_name_by_link "https://host/path/name.ext?extra=1" = some "name.ext" ∧
    get_file_name_by_link "https://host/" = some "" ∧
    (∀ link : String, pyContains link "/" = false →
      ∀ n : List Char, (pySplit "?extra".data link.data).head? = some n →
        get_file_name_by_link link = some n.asString) ∧
    (∀ link : String, get_file_name_by_link link ≠ none) := by
  refine ⟨by decide, by decide, ?_, ?_⟩
  · intro link hnf n hn
    have hmem : ('/' : Char) ∉ link.data :=
      not_mem_of_single_none (pyContains_false_iff.mp hnf)
    have hsplit : splitChar '/' link.data = [link.data] := splitChar_of_not_mem hmem
    simp [get_file_name_by_link, hsplit, lastElem?, hn]
  · intro link
    obtain ⟨s, hs⟩ := get_file_name_by_link_isSome link
    simp [hs]

/-- Witness for C5 (amended) at the slash-free input `"abc?extra=1"`. -/
theorem C5_filename_extraction_witness :
    get_file_name_by_link "abc?extra=1" = some "abc" := by
  have h := C5_filename_extraction.2.2.1 "abc?extra=1" (by decide) "abc".data (by decide)
  exact h

/-- C6: on an HTML viewer page (status 200, no error title) the resolver
returns the `src` of the first `img`, else of the first `iframe`, without
consulting redirects; with neither element, or a non-HTML content-type, it
returns the final response URL exactly when it differs from the requested
URL, and `none` when no redirect occurred. -/
theorem C6_link_resolution (env : Env) (url : String) (r : Response)
    (hf : env.fetch url = some r) (hs : r.status = 200) :
    (∀ te el, pyContains r.contentType "text/html" = true →
      findTag r "title" = some te → pyContains te.text "Ошибка" = false →
      findTag r "img" = some el →
      find_link_by_url env url = .ok el.src) ∧
    (∀ te el, pyContains r.contentType "text/html" = true →
      findTag r "title" = some te → pyContains te.text "Ошибка" = false →
      findTag r "img" = none → findTag r "iframe" = some el →
      find_link_by_url env url = .ok el.src) ∧
    (pyContains r.contentType "text/html" = false →
      find_link_by_url env url =
        .ok (if r.finalUrl ≠ url then some r.finalUrl else none)) ∧
    (∀ te, pyContains r.contentType "text/html" = true →
      findTag r "title" = some te → pyContains te.text "Ошибка" = false →
      findTag r "img" = none → findTag r "iframe" = none →
      find_link_by_url env url =
        .ok (if r.finalUrl ≠ url then some r.finalUrl else none)) := by
  refine ⟨?_, ?_, ?_, ?_⟩
  · intro te el hh ht hm hi
    simp [find_link_by_url, hf, hs, hh, ht, hm, hi]
  · intro te el hh ht hm hi hif
    simp [find_link_by_url, hf, hs, hh, ht, hm, hi, hif]
  · intro hh
    by_cases hru : r.finalUrl = url
    · simp [find_link_by_url, hf, hs, hh, hru]
    · simp [find_link_by_url, hf, hs, hh, hru]
  · intro te hh ht hm hi hif
    by_cases hru : r.finalUrl = url
    · simp [find_link_by_url, hf, hs, hh, ht, hm, hi, hif, hru]
    · simp [find_link_by_url, hf, hs, hh, ht, hm, hi, hif, hru]

/-- Viewer page for the C6 witness: both an `img` and an `iframe`;
the `img` wins. -/
def respC6W : Response :=
  ⟨200, "text/html", "http://vk.com/doc3",
   [⟨"title", none, "Док"⟩, ⟨"img", some "http://cdn/a.png", ""⟩,
    ⟨"iframe", some "http://cdn/b", ""⟩], []⟩

/-- Network for the C6 witness. -/
def envC6W : Env := ⟨fun u => if u = "http://vk.com/doc3" then some respC6W else none⟩

/-- Witness for C6: the first `img`'s `src` is returned. -/
theorem C6_link_resolution_witness :
    find_link_by_url envC6W "http://vk.com/doc3" = .ok (some "http://cdn/a.png") :=
  (C6_link_resolution envC6W "http://vk.com/doc3" respC6W rfl rfl).1
    ⟨"title", none, "Док"⟩ ⟨"img", some "http://cdn/a.png", ""⟩
    (by decide) rfl (by decide) rfl

/-- C7: when the content-type contains neither "image" nor "audio" and the
combination (HTML content-type AND viewer-host URL) does not hold, the
fetch returns `not_parse` with the resolved URL, writes nothing, and
raises nothing. -/
theorem C7_not_parse (env : Env) (url save_path file_name : String)
    (r : Response) (hf : env.fetch url = some r) (hs : r.status = 200)
    (hi : pyContains r.contentType "image" = false)
    (ha : pyContains r.contentType "audio" = false)
    (hn : ¬(pyContains r.contentType "text/html" = true ∧
            pyContains url "vk.com/doc" = true)) :
    get_info_body env url save_path file_name =
      .ok (⟨r.finalUrl, "not_parse"⟩, []) ∧
    get_info env url save_path file_name = (⟨r.finalUrl, "not_parse"⟩, []) := by
  have hb : get_info_body env url save_path file_name =
      .ok (⟨r.finalUrl, "not_parse"⟩, []) := by
    simp [get_info_body, hf, hs, hi, ha, hn]
  exact ⟨hb, by simp [get_info, hb]⟩

/-- PDF response for the C7 witness. -/
def respC7W : Response := ⟨200, "application/pdf", "http://x/doc.pdf", [], [1]⟩

/-- Network for the C7 witness. -/
def envC7W : Env := ⟨fun u => if u = "http://x/doc" then some respC7W else none⟩

/-- Witness for C7: `application/pdf` on a non-viewer host is
`not_parse` with no file written. -/
theorem C7_not_parse_witness :
    get_info envC7W "http://x/doc" "s" "f" =
      (⟨"http://x/doc.pdf", "not_parse"⟩, []) :=
  (C7_not_parse envC7W "http://x/doc" "s" "f" respC7W rfl rfl
    (by decide) (by decide) (by decide)).2

/-- C8: a viewer page whose `<title>` contains the localized error marker
makes `find_link_by_url` fail with the access-denied assertion, and the
orchestrator surfaces `file_info = "error"`. -/
theorem C8_error_marker (env : Env) (url save_path file_name : String)
    (r r2 : Response) (te : HtmlElem)
    (hf : env.fetch url = some r) (hs : r.status = 200)
    (hi : pyContains r.contentType "image" = false)
    (ha : pyContains r.contentType "audio" = false)
    (hh : pyContains r.contentType "text/html" = true)
    (hv : pyContains url "vk.com/doc" = true)
    (hf2 : env.fetch r.finalUrl = some r2) (hs2 : r2.status = 200)
    (hh2 : pyContains r2.contentType "text/html" = true)
    (ht : findTag r2 "title" = some te)
    (hm : pyContains te.text "Ошибка" = true) :
    find_link_by_url env r.finalUrl = .error "Ошибка доступа к документу" ∧
    get_info env url save_path file_name = (⟨url, "error"⟩, []) := by
  have hfl : find_link_by_url env r.finalUrl = .error "Ошибка доступа к документу" := by
    simp [find_link_by_url, hf2, hs2, hh2, ht, hm]
  exact ⟨hfl, by simp [get_info, get_info_body, hf, hs, hi, ha, hh, hv, hfl]⟩

/-- Access-denied viewer page for the C8 witness. -/
def respC8W : Response :=
  ⟨200, "text/html; charset=utf-8", "http://vk.com/doc9",
   [⟨"title", none, "Ошибка"⟩], []⟩

/-- Network for the C8 witness. -/
def envC8W : Env := ⟨fun u => if u = "http://vk.com/doc9" then some respC8W else none⟩

/-- Witness for C8: the error-titled page yields the error record. -/
theorem C8_error_marker_witness :
    get_info envC8W "http://vk.com/doc9" "s" "f" =
      (⟨"http://vk.com/doc9", "error"⟩, []) :=
  (C8_error_marker envC8W "http://vk.com/doc9" "s" "f" respC8W respC8W
    ⟨"title", none, "Ошибка"⟩ rfl rfl (by decide) (by decide) (by decide)
    (by decide) rfl rfl (by decide) rfl (by decide)).2

/-- C10: the extractor's exception branch is unreachable — it returns
`some` on every string — hence in the resolve-and-download path the
`{file_name}.{extension}` fallback is never used when the resolver
returned a string link: the extracted name is used as the written file's
name even when it is the empty string. -/
theorem C10_fallback_unreachable :
    (∀ link : String, ∃ s, get_file_name_by_link link = some s) ∧
    (∀ (env : Env) (url save_path file_name link : String) (r r2 : Response)
      (info : ContentTypeInfo),
      env.fetch url = some r → r.status = 200 →
      pyContains r.contentType "image" = false →
      pyContains r.contentType "audio" = false →
      pyContains r.contentType "text/html" = true →
      pyContains url "vk.com/doc" = true →
      find_link_by_url env r.finalUrl = .ok (some link) →
      env.fetch link = some r2 →
      get_response_info r2.contentType = .ok info →
      ∃ s, get_file_name_by_link link = some s ∧
        get_info env url save_path file_name =
          (⟨r2.finalUrl, info.full_type_info⟩,
           [⟨pjoin save_path info.full_type_info, s, r2.body⟩])) := by
  refine ⟨get_file_name_by_link_isSome, ?_⟩
  intro env url save_path file_name link r r2 info hf hs hi ha hh hv hfind hf2 hinfo
  obtain ⟨s, hsl⟩ := get_file_name_by_link_isSome link
  refine ⟨s, hsl, ?_⟩
  simp [get_info, get_info_body, resolveBranch, hf, hs, hi, ha, hh, hv, hfind,
    hf2, hinfo, hsl]

/-- Viewer page for the C10 witness: the `img` src ends in `/`, so name
extraction yields the empty string. -/
def respDocC10 : Response :=
  ⟨200, "text/html", "http://vk.com/doc2",
   [⟨"title", none, "Док"⟩, ⟨"img", some "http://cdn/img/", ""⟩], []⟩

/-- Resolved-link response for the C10 witness. -/
def respImgC10 : Response := ⟨200, "image/png", "http://cdn/img/", [], [5]⟩

/-- Network for the C10 witness. -/
def envC10W : Env :=
  ⟨fun u =>
    if u = "http://vk.com/doc2" then some respDocC10
    else if u = "http://cdn/img/" then some respImgC10
    else none⟩

/-- Witness for C10: a resolved link ending in `/` extracts the empty
name, which is used as-is — the fallback name is not taken. -/
theorem C10_fallback_unreachable_witness :
    get_file_name_by_link "http://cdn/img/" = some "" ∧
    get_info envC10W "http://vk.com/doc2" "s" "f" =
      (⟨"http://cdn/img/", "image/png"⟩, [⟨pjoin "s" "image/png", "", [5]⟩]) := by
  have h := C10_fallback_unreachable.2 envC10W "http://vk.com/doc2" "s" "f"
    "http://cdn/img/" respDocC10 respImgC10 ⟨none, "image", "png", "image/png"⟩
    rfl rfl (by decide) (by decide) (by decide) (by decide) (by rfl) rfl (by rfl)
  obtain ⟨s, hsl, hg⟩ := h
  have hval : get_file_name_by_link "http://cdn/img/" = some "" := by decide
  have hseq : s = "" := Option.some.inj (hsl.symm.trans hval)
  exact ⟨hval, by rw [← hseq]; exact hg⟩
